import Mathlib

/-!
Verification of the generic rule-based FizzBuzz engine (`src/lib.rs`).

The Rust code defines `Matcher<T>` (a predicate `T -> bool` plus a
substitution string), `Fizzy<T>` (an ordered `Vec` of matchers, built with
`add_matcher`, modelled here as an `Array`), `Fizzy::apply` (a map over the
input producing, per element, the concatenation of the substitutions of the
matching rules, falling back to the element's textual form), and `fizz_buzz`
(a convenience constructor preloaded with the divisible-by-3 → "fizz" and
divisible-by-5 → "buzz" rules, generic over any type with `Rem`, `From<u8>`,
`PartialEq` and `Display`; that trait bound is modelled by the explicit
operations record `NumOps`).
-/

namespace FizzBuzz

/-- `Matcher<T>` from `src/lib.rs`: a boolean condition over `T` together
with a substitution string (the `_phantom` field carries no data and is
omitted). The stored Rust closure `Box<dyn Fn(T) -> bool>` is modelled as a
Lean function `T → Bool`. -/
structure Matcher (T : Type) where
  condition : T → Bool
  substitution : String

/-- `Matcher::new`: stores the condition and the substitution unchanged. -/
def Matcher.new {T : Type} (matcher : T → Bool) (subs : String) : Matcher T :=
  { condition := matcher, substitution := subs }

/-- `Matcher::check`: returns `some substitution` when the condition holds
on the value, `none` otherwise. -/
def Matcher.check {T : Type} (m : Matcher T) (value : T) : Option String :=
  if m.condition value then some m.substitution else none

/-- State-passing embedding of `Matcher::check(&self, value)`: the method
borrows the receiver immutably and its body performs no mutation, so the
final receiver state returned is the receiver itself. -/
def Matcher.checkSt {T : Type} (m : Matcher T) (value : T) :
    Option String × Matcher T :=
  (if m.condition value then some m.substitution else none, m)

/-- `Fizzy<T>` from `src/lib.rs`: the ordered `Vec<Matcher<T>>`, modelled as
an `Array` (the `_phantom` field is omitted). -/
structure Fizzy (T : Type) where
  matchers : Array (Matcher T)

/-- `Fizzy::new`: a rule set with no matchers. -/
def Fizzy.new {T : Type} : Fizzy T :=
  { matchers := #[] }

/-- `Fizzy::add_matcher`: pushes the matcher at the end of the vector and
returns the rule set. -/
def Fizzy.add_matcher {T : Type} (f : Fizzy T) (matcher : Matcher T) :
    Fizzy T :=
  { f with matchers := f.matchers.push matcher }

/-- The body of the closure inside `Fizzy::apply`, acting on one input
element: fold over the matchers, appending each matching substitution to the
accumulator string, then fall back to the element's textual form (Rust's
`val.to_string()` via `Display`, passed here as `toStr`) when the
accumulator is empty. -/
def Fizzy.applyOne {T : Type} (f : Fizzy T) (toStr : T → String) (val : T) :
    String :=
  let result := f.matchers.foldl
    (fun result matcher =>
      match matcher.check val with
      | some substitution => result ++ substitution
      | none => result)
    ""
  if result.isEmpty then toStr val else result

/-- `Fizzy::apply` on a finite input sequence: `iter.map` of the per-element
closure. -/
def Fizzy.apply {T : Type} (f : Fizzy T) (toStr : T → String)
    (iter : List T) : List String :=
  iter.map (f.applyOne toStr)

/-- `Fizzy::apply` on an unbounded input sequence, modelled as a function
from positions to values: the lazy iterator adapter maps the same
per-element closure over the stream. -/
def Fizzy.applyStream {T : Type} (f : Fizzy T) (toStr : T → String)
    (iter : Nat → T) : Nat → String :=
  fun i => f.applyOne toStr (iter i)

/-- `Iterator::take n` on a stream: the list of its first `n` elements. -/
def takeStream {α : Type} (s : Nat → α) (n : Nat) : List α :=
  (List.range n).map s

/-- The capabilities `T: Copy + Rem<Output = T> + From<u8> + PartialEq +
Display` required by `fizz_buzz`, as an explicit record: remainder,
conversion from a small integer, boolean equality and textual form. -/
structure NumOps (T : Type) where
  rem : T → T → T
  ofU8 : Nat → T
  beq : T → T → Bool
  toStr : T → String

/-- `fizz_buzz`: a rule set preloaded with the divisible-by-3 → "fizz" rule
followed by the divisible-by-5 → "buzz" rule, where divisibility is
`n % T::from(k) == T::from(0)` in the generic operations. -/
def fizz_buzz {T : Type} (ops : NumOps T) : Fizzy T :=
  (Fizzy.new.add_matcher
      (Matcher.new (fun n => ops.beq (ops.rem n (ops.ofU8 3)) (ops.ofU8 0)) "fizz")).add_matcher
    (Matcher.new (fun n => ops.beq (ops.rem n (ops.ofU8 5)) (ops.ofU8 0)) "buzz")

/-- The operations of an unsigned machine integer (`u64`, and `u8`/`u32` on
values below their bounds), on `Nat`: Rust's `%`, identity `From<u8>`, `==`,
and decimal `Display`. -/
def natOps : NumOps Nat :=
  { rem := fun a b => a % b
    ofU8 := fun k => k
    beq := fun a b => a == b
    toStr := Nat.repr }

/-- The operations of a signed machine integer (`i32` on values within its
bounds), on `Int`: Rust's `%` truncates toward zero (`Int.tmod`), `From<u8>`
embeds the small naturals, `==` is equality, and `Display` is the decimal
form. -/
def intOps : NumOps Int :=
  { rem := Int.tmod
    ofU8 := fun k => Int.ofNat k
    beq := fun a b => a == b
    toStr := Int.repr }

/-- The concatenation, in rule-insertion order, of the substitutions of the
rules whose condition holds on `v` — the specification's description of the
accumulator built inside `Fizzy::apply`. -/
def matchingConcat {T : Type} (f : Fizzy T) (v : T) : String :=
  String.join ((f.matchers.toList.filter (fun m => m.condition v)).map
    Matcher.substitution)

/-- The custom three-rule set of the `tests::custom` scenario, over `i32`:
divisible-by-5 → "Buzz", then divisible-by-3 → "Fizz", then
divisible-by-7 → "Bam". -/
def customFizzy : Fizzy Int :=
  ((Fizzy.new.add_matcher
        (Matcher.new (fun n : Int => Int.tmod n 5 == 0) "Buzz")).add_matcher
      (Matcher.new (fun n : Int => Int.tmod n 3 == 0) "Fizz")).add_matcher
    (Matcher.new (fun n : Int => Int.tmod n 7 == 0) "Bam")

/-- Prepending a string to a joined list of strings. -/
lemma join_cons (s : String) (l : List String) :
    String.join (s :: l) = s ++ String.join l := by
  simp [String.join_eq]
  rfl

/-- The fold inside `Fizzy::apply` computes the accumulator appended with
the concatenation, in order, of the substitutions of the matching rules. -/
lemma foldl_check_eq {T : Type} (v : T) (ms : List (Matcher T)) (acc : String) :
    ms.foldl
        (fun r m =>
          match m.check v with
          | some substitution => r ++ substitution
          | none => r)
        acc
      = acc ++ String.join ((ms.filter (fun m => m.condition v)).map
          Matcher.substitution) := by
  induction ms generalizing acc with
  | nil => simp [String.join]
  | cons m t ih =>
    simp only [List.foldl_cons]
    by_cases h : m.condition v = true
    · have hc : m.check v = some m.substitution := by simp [Matcher.check, h]
      rw [hc, ih]
      simp [h, join_cons, String.append_assoc]
    · have hc : m.check v = none := by simp [Matcher.check, h]
      rw [hc, ih]
      simp [h]

/-- Per-element closed form of `Fizzy::apply`: the matching-rule
concatenation when it is nonempty, the element's textual form otherwise. -/
lemma applyOne_eq {T : Type} (f : Fizzy T) (toStr : T → String) (v : T) :
    f.applyOne toStr v =
      if matchingConcat f v = "" then toStr v else matchingConcat f v := by
  unfold Fizzy.applyOne matchingConcat
  rw [Array.foldl_eq_foldl_toList, foldl_check_eq]
  simp [String.isEmpty_iff]

/-- Closed form of the default fizz/buzz rule set on one element, in the
generic operations. -/
lemma fizz_buzz_applyOne {T : Type} (ops : NumOps T) (v : T) :
    (fizz_buzz ops).applyOne ops.toStr v =
      if ops.beq (ops.rem v (ops.ofU8 3)) (ops.ofU8 0) then
        (if ops.beq (ops.rem v (ops.ofU8 5)) (ops.ofU8 0) then "fizzbuzz" else "fizz")
      else
        (if ops.beq (ops.rem v (ops.ofU8 5)) (ops.ofU8 0) then "buzz" else ops.toStr v) := by
  cases h3 : ops.beq (ops.rem v (ops.ofU8 3)) (ops.ofU8 0) <;>
    cases h5 : ops.beq (ops.rem v (ops.ofU8 5)) (ops.ofU8 0) <;>
      simp [fizz_buzz, Fizzy.applyOne, Fizzy.add_matcher, Fizzy.new, Matcher.new,
        Matcher.check, Array.foldl_eq_foldl_toList, Array.push_toList, h3, h5] <;>
      first
        | (intro h; exact absurd h (by decide))
        | (rw [if_neg (by decide)]; decide)

/-- Closed form of the default fizz/buzz rule set on a natural number. -/
lemma fizz_buzz_nat (n : Nat) :
    (fizz_buzz natOps).applyOne natOps.toStr n =
      if n % 3 = 0 then (if n % 5 = 0 then "fizzbuzz" else "fizz")
      else (if n % 5 = 0 then "buzz" else Nat.repr n) := by
  rw [fizz_buzz_applyOne]
  by_cases h3 : n % 3 = 0 <;> by_cases h5 : n % 5 = 0 <;> simp [natOps, h3, h5]

/-- Joining a list whose every element is the empty string yields the empty
string. -/
lemma join_eq_empty_of_all_empty (l : List String) (h : ∀ s ∈ l, s = "") :
    String.join l = "" := by
  induction l with
  | nil => rfl
  | cons s t ih =>
    rw [join_cons, h s (List.mem_cons_self s t),
      ih (fun x hx => h x (List.mem_cons_of_mem s hx))]
    rfl

/-- Claim C1: for every rule set and input sequence, `Fizzy::apply` produces
exactly one output string per input element, namely the concatenation, in
rule-insertion order, of the substitutions of the rules whose predicate
holds on the element, or the element's own textual representation when that
concatenation is empty. -/
theorem apply_concat_fallback_C1 {T : Type} (f : Fizzy T) (toStr : T → String)
    (l : List T) :
    f.apply toStr l = l.map (fun v =>
      if matchingConcat f v = "" then toStr v else matchingConcat f v) := by
  unfold Fizzy.apply
  exact List.map_congr_left (fun v _ => applyOne_eq f toStr v)

/-- Claim C2: the rule set built by `fizz_buzz` maps an integer to its
decimal form when it is a multiple of neither 3 nor 5, to "fizz" when a
multiple of 3 only, to "buzz" when a multiple of 5 only, and to "fizzbuzz"
(fizz text preceding buzz text) when a multiple of 15. -/
theorem fizz_buzz_cases_C2 (n : Nat) :
    ((¬ 3 ∣ n ∧ ¬ 5 ∣ n) →
      (fizz_buzz natOps).applyOne natOps.toStr n = Nat.repr n) ∧
    ((3 ∣ n ∧ ¬ 5 ∣ n) →
      (fizz_buzz natOps).applyOne natOps.toStr n = "fizz") ∧
    ((5 ∣ n ∧ ¬ 3 ∣ n) →
      (fizz_buzz natOps).applyOne natOps.toStr n = "buzz") ∧
    (15 ∣ n →
      (fizz_buzz natOps).applyOne natOps.toStr n = "fizzbuzz") := by
  rw [fizz_buzz_nat]
  simp only [Nat.dvd_iff_mod_eq_zero]
  refine ⟨fun h => ?_, fun h => ?_, fun h => ?_, fun h => ?_⟩
  · rw [if_neg h.1, if_neg h.2]
  · rw [if_pos h.1, if_neg h.2]
  · rw [if_neg h.2, if_pos h.1]
  · have h3 : n % 3 = 0 := by omega
    have h5 : n % 5 = 0 := by omega
    rw [if_pos h3, if_pos h5]

/-- Witness for C2 at the concrete input 15: the output is "fizzbuzz". -/
theorem fizz_buzz_cases_C2_witness :
    (fizz_buzz natOps).applyOne natOps.toStr 15 = "fizzbuzz" :=
  (fizz_buzz_cases_C2 15).2.2.2 (by decide)

/-- Claim C3: `Matcher::check` returns `some substitution` exactly when the
predicate holds on the value and `none` exactly when it does not; its return
type `Option String` carries no failure or error value. -/
theorem check_some_iff_C3 {T : Type} (m : Matcher T) (v : T) :
    (m.check v = some m.substitution ↔ m.condition v = true) ∧
    (m.check v = none ↔ m.condition v = false) := by
  by_cases h : m.condition v = true <;> simp [Matcher.check, h]

/-- Claim C4: `Fizzy::add_matcher` appends the new matcher at the end of the
rule list, leaving the relative order of all previously added rules
unchanged. -/
theorem add_matcher_appends_C4 {T : Type} (f : Fizzy T) (m : Matcher T) :
    (f.add_matcher m).matchers.toList = f.matchers.toList ++ [m] := by
  simp [Fizzy.add_matcher, Array.push_toList]

/-- Claim C5: `Fizzy::apply` is length-preserving on every finite input, and
the first 16 elements of applying the default fizz/buzz rules to the
unbounded successor stream starting at 1 equal the application to the
bounded range 1..=16. -/
theorem apply_length_stream_C5 :
    (∀ (T : Type) (f : Fizzy T) (toStr : T → String) (l : List T),
        (f.apply toStr l).length = l.length) ∧
    takeStream ((fizz_buzz natOps).applyStream natOps.toStr (fun i => 1 + i)) 16
      = (fizz_buzz natOps).apply natOps.toStr (List.range' 1 16) := by
  constructor
  · intro T f toStr l
    simp [Fizzy.apply]
  · decide

/-- Claim C6: the transform is representation-independent — if, on the given
values, the two representations agree on the divisible-by-3 test, the
divisible-by-5 test, and the textual form (through the value map `hm`), then
the default fizz/buzz rules produce identical output strings over either
representation. -/
theorem repr_independence_C6 {T1 T2 : Type} (ops1 : NumOps T1) (ops2 : NumOps T2)
    (hm : T1 → T2) (l : List T1)
    (h3 : ∀ v ∈ l, ops1.beq (ops1.rem v (ops1.ofU8 3)) (ops1.ofU8 0)
        = ops2.beq (ops2.rem (hm v) (ops2.ofU8 3)) (ops2.ofU8 0))
    (h5 : ∀ v ∈ l, ops1.beq (ops1.rem v (ops1.ofU8 5)) (ops1.ofU8 0)
        = ops2.beq (ops2.rem (hm v) (ops2.ofU8 5)) (ops2.ofU8 0))
    (hs : ∀ v ∈ l, ops1.toStr v = ops2.toStr (hm v)) :
    (fizz_buzz ops1).apply ops1.toStr l
      = (fizz_buzz ops2).apply ops2.toStr (l.map hm) := by
  unfold Fizzy.apply
  rw [List.map_map]
  refine List.map_congr_left (fun v hv => ?_)
  show (fizz_buzz ops1).applyOne ops1.toStr v
      = (fizz_buzz ops2).applyOne ops2.toStr (hm v)
  rw [fizz_buzz_applyOne, fizz_buzz_applyOne, h3 v hv, h5 v hv, hs v hv]

/-- Witness for C6: the unsigned representation on `Nat` and the signed
representation on `Int` agree on the inputs 1, 3, 5, 15 and produce the same
output strings. -/
theorem repr_independence_C6_witness :
    (fizz_buzz natOps).apply natOps.toStr [1, 3, 5, 15]
      = (fizz_buzz intOps).apply intOps.toStr ([1, 3, 5, 15].map Int.ofNat) :=
  repr_independence_C6 natOps intOps Int.ofNat [1, 3, 5, 15]
    (by decide) (by decide) (by decide)

/-- Claim C7: the custom three-rule set {÷5 → "Buzz", ÷3 → "Fizz",
÷7 → "Bam"} applied to 1..=16 yields "BuzzFizz" at position 15 (index 14):
the Buzz rule was added first, so its text precedes the Fizz text. -/
theorem custom_buzzfizz_C7 :
    (customFizzy.apply Int.repr ((List.range' 1 16).map Int.ofNat))[14]?
      = some "BuzzFizz" := by
  decide

/-- Claim C8: `Matcher::check` is side-effect-free and frame-preserving — in
the state-passing embedding it leaves the predicate and the substitution of
the receiver unchanged, a repeated call with the same value returns the same
result, and its result is that of the pure `check`. -/
theorem check_frame_C8 {T : Type} (m : Matcher T) (v : T) :
    ((m.checkSt v).2.condition = m.condition ∧
      (m.checkSt v).2.substitution = m.substitution) ∧
    ((m.checkSt v).2.checkSt v).1 = (m.checkSt v).1 ∧
    (m.checkSt v).1 = m.check v :=
  ⟨⟨rfl, rfl⟩, rfl, rfl⟩

/-- Claim C9: a matching rule with an empty substitution is
indistinguishable in the output from a non-matching rule — when every rule
matching `v` has an empty substitution, the output element is `v`'s textual
form, because the fallback tests emptiness of the accumulated string rather
than whether any rule matched. -/
theorem empty_substitution_fallback_C9 {T : Type} (f : Fizzy T)
    (toStr : T → String) (v : T)
    (h : ∀ m ∈ f.matchers.toList, m.condition v = true → m.substitution = "") :
    f.applyOne toStr v = toStr v := by
  rw [applyOne_eq]
  have hc : matchingConcat f v = "" := by
    unfold matchingConcat
    refine join_eq_empty_of_all_empty _ (fun s hs => ?_)
    obtain ⟨m, hm, rfl⟩ := List.mem_map.mp hs
    have hmf := List.mem_filter.mp hm
    exact h m hmf.1 (by simpa using hmf.2)
  rw [hc]
  simp

/-- Witness for C9: a single always-matching rule with empty substitution
applied to 7 outputs "7". -/
theorem empty_substitution_fallback_C9_witness :
    (Fizzy.new.add_matcher (Matcher.new (fun _ : Nat => true) "")).applyOne
        Nat.repr 7 = "7" :=
  empty_substitution_fallback_C9
    (Fizzy.new.add_matcher (Matcher.new (fun _ : Nat => true) ""))
    Nat.repr 7 (by decide)

/-- Claim C10: applying the empty rule set (`Fizzy::new` with no matchers)
to any input equals mapping the textual representation over the input. -/
theorem empty_identity_C10 {T : Type} (toStr : T → String) (l : List T) :
    (Fizzy.new : Fizzy T).apply toStr l = l.map toStr := by
  unfold Fizzy.apply
  refine List.map_congr_left (fun v _ => ?_)
  rw [applyOne_eq]
  simp [matchingConcat, Fizzy.new, String.join]

end FizzBuzz
